import Mathlib

/-!
Shallow embedding of the RecruitMaster in-memory storage layer
(`server/storage.ts`, class `MemStorage`) and of the Express route
handlers around it (`registerRoutes`), together with theorems checking
the natural-language specification against this embedding.

Modelling conventions:
- JavaScript `Map` objects are modelled as insertion-ordered association
  lists; `Map.set` replaces the value of an existing key in place and
  appends a new key at the end, `Map.delete` removes the key,
  `Map.values()` is the list of values in insertion order.
- `Date` values are modelled as natural-number timestamps; every
  operation that calls `new Date()` takes the current time `now : Nat`
  as an explicit argument.
- TypeScript `string | null | undefined` fields are modelled as
  `Option String` (both `null` and `undefined` become `none`, which is
  faithful because the code only distinguishes them through truthiness,
  and both are falsy).
- JavaScript truthiness on strings (`x || null`, `if (x) ...`) is
  explicit: the empty string is falsy.
- Operations that `throw` (update/delete on a missing id) return
  `Option`, `none` meaning the thrown not-found error.
-/

namespace RecruitMaster

/-- User record, from the `users` table of `shared/schema.ts` as stored by
`MemStorage` (timestamps are always set by `upsertUser`). -/
structure User where
  id : String
  email : Option String
  firstName : Option String
  lastName : Option String
  profileImageUrl : Option String
  createdAt : Nat
  updatedAt : Nat
deriving DecidableEq, Repr

/-- Input to `upsertUser` (`UpsertUser` = insert schema of `users` minus
timestamps). -/
structure UpsertUser where
  id : String
  email : Option String
  firstName : Option String
  lastName : Option String
  profileImageUrl : Option String
deriving DecidableEq, Repr

/-- Position record, from the `positions` table of `shared/schema.ts`. -/
structure Position where
  id : Nat
  title : String
  department : String
  location : String
  description : Option String
  status : String
  createdAt : Nat
  updatedAt : Nat
deriving DecidableEq, Repr

/-- Input to `createPosition` (`insertPositionSchema` omits id and
timestamps; `description` is nullable and `status` has a default, so both
are optional). -/
structure InsertPosition where
  title : String
  department : String
  location : String
  description : Option String := none
  status : Option String := none
deriving DecidableEq, Repr

/-- Input to `updatePosition` (`insertPositionSchema.partial()`): every
field independently optional; an omitted field is `none`. -/
structure PartialPosition where
  title : Option String := none
  department : Option String := none
  location : Option String := none
  description : Option (Option String) := none
  status : Option String := none
deriving DecidableEq, Repr

/-- Candidate record, from the `candidates` table of `shared/schema.ts`. -/
structure Candidate where
  id : Nat
  name : String
  email : String
  phone : String
  resume : Option String
  positionId : Option Nat
  positionApplied : String
  status : String
  createdAt : Nat
  updatedAt : Nat
deriving DecidableEq, Repr

/-- Input to `createCandidate` (`insertCandidateSchema` omits id and
timestamps; `resume` and `positionId` are nullable, `status` has a
default). -/
structure InsertCandidate where
  name : String
  email : String
  phone : String
  resume : Option String := none
  positionId : Option Nat := none
  positionApplied : String
  status : Option String := none
deriving DecidableEq, Repr

/-- Input to `updateCandidate` (`insertCandidateSchema.partial()`). -/
structure PartialCandidate where
  name : Option String := none
  email : Option String := none
  phone : Option String := none
  resume : Option (Option String) := none
  positionId : Option (Option Nat) := none
  positionApplied : Option String := none
  status : Option String := none
deriving DecidableEq, Repr

/-- Optional filter set accepted by `getCandidates`. -/
structure Filters where
  position : Option String := none
  status : Option String := none
  search : Option String := none
deriving DecidableEq, Repr

/-- Result record of `getDashboardStats`. -/
structure DashboardStats where
  totalPositions : Nat
  totalCandidates : Nat
  inReview : Nat
  shortlisted : Nat
deriving DecidableEq, Repr

/-! JavaScript semantics helpers. -/

/-- Model of the JavaScript expression `x || null` on a
`string | null | undefined` value: the empty string is falsy and becomes
`null`. -/
def jsOrNull : Option String → Option String
  | some v => if v = "" then none else some v
  | none => none

/-- Model of the JavaScript expression `x || d` on a
`string | null | undefined` value with string default `d`. -/
def jsOrDefault (v : Option String) (d : String) : String :=
  match v with
  | some s => if s = "" then d else s
  | none => d

/-- Model of the JavaScript expression `x || null` on a
`number | null | undefined` value: `0` is falsy and becomes `null`. -/
def jsOrNullNat : Option Nat → Option Nat
  | some n => if n = 0 then none else some n
  | none => none

/-- Character-list version of prefix matching: `charsMatchAt p l` holds
when `p` occurs at the head of `l`. -/
def charsMatchAt : List Char → List Char → Bool
  | [], _ => true
  | _ :: _, [] => false
  | a :: as, b :: bs => a = b && charsMatchAt as bs

/-- Contiguous-substring occurrence on character lists. -/
def charsContain (p : List Char) : List Char → Bool
  | [] => charsMatchAt p []
  | b :: bs => charsMatchAt p (b :: bs) || charsContain p bs

/-- Model of JavaScript `s.includes(p)`: `p` occurs contiguously in `s`. -/
def strIncludes (s p : String) : Bool :=
  charsContain p.toList s.toList

/-! Association-list model of a JavaScript `Map`. -/

/-- Lookup by key, the model of `Map.get` (and of `Map.has` via
`Option.isSome`). -/
def mapGet {κ α : Type} [DecidableEq κ] (l : List (κ × α)) (k : κ) : Option α :=
  match l with
  | [] => none
  | (k₂, v) :: rest => if k₂ = k then some v else mapGet rest k

/-- Model of `Map.set`: replace the value at an existing key in place,
otherwise append the new entry at the end (JavaScript `Map` keeps
insertion order). -/
def mapSet {κ α : Type} [DecidableEq κ] (l : List (κ × α)) (k : κ) (v : α) : List (κ × α) :=
  match l with
  | [] => [(k, v)]
  | (k₂, v₂) :: rest => if k₂ = k then (k, v) :: rest else (k₂, v₂) :: mapSet rest k v

/-- Model of `Map.delete`. -/
def mapDelete {κ α : Type} [DecidableEq κ] (l : List (κ × α)) (k : κ) : List (κ × α) :=
  l.filter (fun e => !(e.1 = k : Bool))

/-- Model of `Array.from(map.values())`. -/
def mapValues {κ α : Type} (l : List (κ × α)) : List α :=
  l.map Prod.snd

/-! Sorting.  `list.sort((a, b) => dateB - dateA)` sorts by creation time
descending; we model it by a stable insertion sort with respect to the
same descending key order. -/

/-- Insert `x` into a list that is already sorted by `key` descending. -/
def insertDescBy {α : Type} (key : α → Nat) (x : α) : List α → List α
  | [] => [x]
  | y :: ys => if key y ≤ key x then x :: y :: ys else y :: insertDescBy key x ys

/-- Sort a list by `key` descending (model of the comparator
`(a, b) => key(b) - key(a)` passed to `Array.prototype.sort`). -/
def sortDescBy {α : Type} (key : α → Nat) : List α → List α
  | [] => []
  | x :: xs => insertDescBy key x (sortDescBy key xs)

/-! The store state and its operations, from `class MemStorage`. -/

/-- State of `MemStorage`: the three collections plus the two id
counters. -/
structure StoreState where
  users : List (String × User)
  positions : List (Nat × Position)
  candidates : List (Nat × Candidate)
  nextPositionId : Nat
  nextCandidateId : Nat
deriving DecidableEq, Repr

/-- Field initializers of `MemStorage`: empty maps, both counters at 1. -/
def emptyStore : StoreState :=
  { users := []
    positions := []
    candidates := []
    nextPositionId := 1
    nextCandidateId := 1 }

/-- The sample Position inserted by the `MemStorage` constructor,
with both timestamps set to the construction time `t0`. -/
def seedPosition (t0 : Nat) : Position :=
  { id := 1
    title := "Senior Frontend Developer"
    department := "Engineering"
    location := "Remote"
    description := some "We\x27re looking for a Senior Frontend Developer to join our engineering team."
    status := "Active"
    createdAt := t0
    updatedAt := t0 }

/-- State after the `MemStorage` constructor has run at time `t0`:
the sample Position is stored under key 1 and `nextPositionId` is set
to 2. -/
def initialStore (t0 : Nat) : StoreState :=
  { emptyStore with
    positions := mapSet emptyStore.positions 1 (seedPosition t0)
    nextPositionId := 2 }

/-- `MemStorage.getUser`. -/
def getUser (s : StoreState) (id : String) : Option User :=
  mapGet s.users id

/-- `MemStorage.upsertUser`: builds the new User record from the supplied
data (each optional field passed through `|| null`), keeping the existing
record's `createdAt` when the id is already present (the code reads
`existingUser?.createdAt || new Date()`, and a stored `Date` is always
truthy), and stores it. -/
def upsertUser (s : StoreState) (userData : UpsertUser) (now : Nat) : User × StoreState :=
  let existingUser := mapGet s.users userData.id
  let user : User :=
    { id := userData.id
      email := jsOrNull userData.email
      firstName := jsOrNull userData.firstName
      lastName := jsOrNull userData.lastName
      profileImageUrl := jsOrNull userData.profileImageUrl
      createdAt := match existingUser with
        | some u => u.createdAt
        | none => now
      updatedAt := now }
  (user, { s with users := mapSet s.users userData.id user })

/-- `MemStorage.getPositions`: all position values sorted by `createdAt`
descending. -/
def getPositions (s : StoreState) : List Position :=
  sortDescBy (fun p => p.createdAt) (mapValues s.positions)

/-- `MemStorage.createPosition`: assigns `nextPositionId` (post-increment),
applies the `|| null` / `|| "Active"` defaults, sets both timestamps to
now, and stores the record. -/
def createPosition (s : StoreState) (position : InsertPosition) (now : Nat) :
    Position × StoreState :=
  let newPosition : Position :=
    { id := s.nextPositionId
      title := position.title
      department := position.department
      location := position.location
      description := jsOrNull position.description
      status := jsOrDefault position.status "Active"
      createdAt := now
      updatedAt := now }
  (newPosition,
    { s with
      positions := mapSet s.positions newPosition.id newPosition
      nextPositionId := s.nextPositionId + 1 })

/-- Spread merge `{ ...existingPosition, ...position, updatedAt: new Date() }`:
fields present in the partial override the existing ones; `id` and
`createdAt` cannot appear in the partial (the insert schema omits them),
and `updatedAt` is set explicitly. -/
def mergePosition (existing : Position) (p : PartialPosition) (now : Nat) : Position :=
  { id := existing.id
    title := p.title.getD existing.title
    department := p.department.getD existing.department
    location := p.location.getD existing.location
    description := p.description.getD existing.description
    status := p.status.getD existing.status
    createdAt := existing.createdAt
    updatedAt := now }

/-- `MemStorage.updatePosition`: `none` models the thrown not-found
error. -/
def updatePosition (s : StoreState) (id : Nat) (position : PartialPosition) (now : Nat) :
    Option (Position × StoreState) :=
  match mapGet s.positions id with
  | none => none
  | some existingPosition =>
      let updatedPosition := mergePosition existingPosition position now
      some (updatedPosition, { s with positions := mapSet s.positions id updatedPosition })

/-- `MemStorage.deletePosition`: `none` models the thrown not-found
error. -/
def deletePosition (s : StoreState) (id : Nat) : Option StoreState :=
  if (mapGet s.positions id).isSome then
    some { s with positions := mapDelete s.positions id }
  else
    none

/-- `MemStorage.getCandidates`: the three truthiness-guarded filters in
source order (position equality, status equality, lower-cased substring
search over name or email), then the descending sort by `createdAt`.
Each guard `if (filters.x)` runs its filter exactly when the field is a
non-empty string, which is what `jsOrNull` computes. -/
def getCandidates (s : StoreState) (filters : Option Filters) : List Candidate :=
  let candidatesList := mapValues s.candidates
  let filtered :=
    match filters with
    | none => candidatesList
    | some f =>
        let l₁ :=
          match jsOrNull f.position with
          | some p => candidatesList.filter (fun c => c.positionApplied = p)
          | none => candidatesList
        let l₂ :=
          match jsOrNull f.status with
          | some st => l₁.filter (fun c => c.status = st)
          | none => l₁
        match jsOrNull f.search with
        | some q =>
            let searchLower := q.toLower
            l₂.filter (fun c =>
              strIncludes c.name.toLower searchLower ||
              strIncludes c.email.toLower searchLower)
        | none => l₂
  sortDescBy (fun c => c.createdAt) filtered

/-- `MemStorage.createCandidate`. -/
def createCandidate (s : StoreState) (candidate : InsertCandidate) (now : Nat) :
    Candidate × StoreState :=
  let newCandidate : Candidate :=
    { id := s.nextCandidateId
      email := candidate.email
      name := candidate.name
      phone := candidate.phone
      positionApplied := candidate.positionApplied
      status := jsOrDefault candidate.status "New"
      resume := jsOrNull candidate.resume
      positionId := jsOrNullNat candidate.positionId
      createdAt := now
      updatedAt := now }
  (newCandidate,
    { s with
      candidates := mapSet s.candidates newCandidate.id newCandidate
      nextCandidateId := s.nextCandidateId + 1 })

/-- Spread merge `{ ...existingCandidate, ...candidate, updatedAt: new Date() }`. -/
def mergeCandidate (existing : Candidate) (c : PartialCandidate) (now : Nat) : Candidate :=
  { id := existing.id
    name := c.name.getD existing.name
    email := c.email.getD existing.email
    phone := c.phone.getD existing.phone
    resume := c.resume.getD existing.resume
    positionId := c.positionId.getD existing.positionId
    positionApplied := c.positionApplied.getD existing.positionApplied
    status := c.status.getD existing.status
    createdAt := existing.createdAt
    updatedAt := now }

/-- `MemStorage.updateCandidate`: `none` models the thrown not-found
error. -/
def updateCandidate (s : StoreState) (id : Nat) (candidate : PartialCandidate) (now : Nat) :
    Option (Candidate × StoreState) :=
  match mapGet s.candidates id with
  | none => none
  | some existingCandidate =>
      let updatedCandidate := mergeCandidate existingCandidate candidate now
      some (updatedCandidate, { s with candidates := mapSet s.candidates id updatedCandidate })

/-- `MemStorage.deleteCandidate`: `none` models the thrown not-found
error. -/
def deleteCandidate (s : StoreState) (id : Nat) : Option StoreState :=
  if (mapGet s.candidates id).isSome then
    some { s with candidates := mapDelete s.candidates id }
  else
    none

/-- `MemStorage.getDashboardStats`: recomputed from the live collections
(`positions.size` is the number of entries of the positions map,
`candidatesList` the candidate values). -/
def getDashboardStats (s : StoreState) : DashboardStats :=
  let candidatesList := mapValues s.candidates
  { totalPositions := s.positions.length
    totalCandidates := candidatesList.length
    inReview := (candidatesList.filter (fun c => c.status = "In Review")).length
    shortlisted := (candidatesList.filter (fun c => c.status = "Shortlisted")).length }

/-! Route handlers from `registerRoutes` (`server/routes.ts`).  A handler
is modelled after body validation has succeeded (a schema violation takes
the `ZodError` branch and returns 400 before the store is touched).  The
`catch` blocks distinguish only `ZodError` (400) from everything else
(500), so a not-found error thrown by the store surfaces as status 500
with the state unchanged. -/

/-- Handler of `PUT /api/positions/:id`: returns the HTTP status and the
resulting store state. -/
def putPositionRoute (s : StoreState) (id : Nat) (body : PartialPosition) (now : Nat) :
    Nat × StoreState :=
  match updatePosition s id body now with
  | some (_, s₂) => (200, s₂)
  | none => (500, s)

/-- Handler of `DELETE /api/positions/:id`. -/
def deletePositionRoute (s : StoreState) (id : Nat) : Nat × StoreState :=
  match deletePosition s id with
  | some s₂ => (204, s₂)
  | none => (500, s)

/-- Handler of `PUT /api/candidates/:id`. -/
def putCandidateRoute (s : StoreState) (id : Nat) (body : PartialCandidate) (now : Nat) :
    Nat × StoreState :=
  match updateCandidate s id body now with
  | some (_, s₂) => (200, s₂)
  | none => (500, s)

/-- Handler of `DELETE /api/candidates/:id`. -/
def deleteCandidateRoute (s : StoreState) (id : Nat) : Nat × StoreState :=
  match deleteCandidate s id with
  | some s₂ => (204, s₂)
  | none => (500, s)

/-! Helper lemmas about the map model. -/

theorem mapGet_mapSet_self {κ α : Type} [DecidableEq κ] (l : List (κ × α)) (k : κ) (v : α) :
    mapGet (mapSet l k v) k = some v := by
  induction l with
  | nil => simp [mapSet, mapGet]
  | cons e rest ih =>
      obtain ⟨k₂, v₂⟩ := e
      by_cases h : k₂ = k
      · simp [mapSet, h, mapGet]
      · simp [mapSet, h, mapGet, ih]

theorem mapGet_mapDelete_self {κ α : Type} [DecidableEq κ] (l : List (κ × α)) (k : κ) :
    mapGet (mapDelete l k) k = none := by
  induction l with
  | nil => simp [mapDelete, mapGet]
  | cons e rest ih =>
      obtain ⟨k₂, v₂⟩ := e
      by_cases h : k₂ = k
      · simpa [mapDelete, h] using ih
      · simpa [mapDelete, h, mapGet] using ih

/-! Helper lemmas about the descending insertion sort. -/

theorem insertDescBy_perm {α : Type} (key : α → Nat) (x : α) (l : List α) :
    (insertDescBy key x l).Perm (x :: l) := by
  induction l with
  | nil => simp [insertDescBy]
  | cons y ys ih =>
      by_cases h : key y ≤ key x
      · simp [insertDescBy, h]
      · simp only [insertDescBy, if_neg h]
        exact (ih.cons y).trans (List.Perm.swap x y ys)

theorem sortDescBy_perm {α : Type} (key : α → Nat) (l : List α) :
    (sortDescBy key l).Perm l := by
  induction l with
  | nil => simp [sortDescBy]
  | cons x xs ih =>
      exact (insertDescBy_perm key x (sortDescBy key xs)).trans (ih.cons x)

theorem mem_insertDescBy {α : Type} {key : α → Nat} {x z : α} {l : List α} :
    z ∈ insertDescBy key x l ↔ z = x ∨ z ∈ l := by
  rw [(insertDescBy_perm key x l).mem_iff]
  simp

theorem insertDescBy_sorted {α : Type} (key : α → Nat) (x : α) (l : List α)
    (h : List.Sorted (fun a b => key b ≤ key a) l) :
    List.Sorted (fun a b => key b ≤ key a) (insertDescBy key x l) := by
  induction l with
  | nil => simp [insertDescBy]
  | cons y ys ih =>
      rw [List.sorted_cons] at h
      obtain ⟨hy, hys⟩ := h
      by_cases hxy : key y ≤ key x
      · simp only [insertDescBy, if_pos hxy]
        rw [List.sorted_cons]
        refine ⟨?_, ?_⟩
        · intro z hz
          rcases List.mem_cons.mp hz with rfl | hz₂
          · exact hxy
          · exact le_trans (hy z hz₂) hxy
        · rw [List.sorted_cons]
          exact ⟨hy, hys⟩
      · simp only [insertDescBy, if_neg hxy]
        rw [List.sorted_cons]
        refine ⟨?_, ih hys⟩
        intro z hz
        rcases mem_insertDescBy.mp hz with rfl | hz₂
        · exact le_of_not_le hxy
        · exact hy z hz₂

theorem sortDescBy_sorted {α : Type} (key : α → Nat) (l : List α) :
    List.Sorted (fun a b => key b ≤ key a) (sortDescBy key l) := by
  induction l with
  | nil => simp [sortDescBy]
  | cons x xs ih => exact insertDescBy_sorted key x (sortDescBy key xs) ih

/-! Sample data used by witnesses and counterexamples. -/

/-- A candidate record with the given id and status, used to build
concrete stores in witnesses. -/
def exCandidate (i : Nat) (st : String) : Candidate :=
  { id := i
    name := "John Doe"
    email := "john.doe@x.com"
    phone := "555"
    resume := none
    positionId := none
    positionApplied := "Backend Developer"
    status := st
    createdAt := i
    updatedAt := i }

/-- Concrete store realizing the aggregation example of the spec:
2 Positions and Candidates with statuses New, In Review, In Review,
Shortlisted. -/
def statsExampleStore : StoreState :=
  { users := []
    positions := [(1, seedPosition 0), (2, { seedPosition 0 with id := 2 })]
    candidates :=
      [(1, exCandidate 1 "New"), (2, exCandidate 2 "In Review"),
       (3, exCandidate 3 "In Review"), (4, exCandidate 4 "Shortlisted")]
    nextPositionId := 3
    nextCandidateId := 5 }

/-- The all-omitted partial update for Positions. -/
def emptyPartialPosition : PartialPosition := {}

/-- The all-omitted partial update for Candidates. -/
def emptyPartialCandidate : PartialCandidate := {}

/-- C2: `getPositions` and `getCandidates` (with any filter argument)
return the surviving records sorted by `createdAt` descending; the output
is a permutation of the stored values (shown for `getPositions` and for
unfiltered `getCandidates`; the filtered permutation statement is the
subject of the filter-correctness theorem). -/
theorem lists_sorted_by_creation_desc (s : StoreState) (filters : Option Filters) :
    List.Sorted (fun a b : Position => b.createdAt ≤ a.createdAt) (getPositions s) ∧
    (getPositions s).Perm (mapValues s.positions) ∧
    List.Sorted (fun a b : Candidate => b.createdAt ≤ a.createdAt) (getCandidates s filters) ∧
    (getCandidates s none).Perm (mapValues s.candidates) := by
  refine ⟨?_, ?_, ?_, ?_⟩
  · exact sortDescBy_sorted _ _
  · exact sortDescBy_perm _ _
  · unfold getCandidates
    exact sortDescBy_sorted _ _
  · unfold getCandidates
    exact sortDescBy_perm _ _

/-- C8: `getDashboardStats` returns exactly the cardinality of the
Position collection, the cardinality of the Candidate collection, and the
counts of Candidates with status "In Review" and "Shortlisted", computed
from the live collections; on the spec example store the result is
(2, 4, 2, 1). -/
theorem getDashboardStats_spec (s : StoreState) :
    (getDashboardStats s).totalPositions = s.positions.length ∧
    (getDashboardStats s).totalCandidates = (mapValues s.candidates).length ∧
    (getDashboardStats s).inReview =
      (mapValues s.candidates).countP (fun c => c.status = "In Review") ∧
    (getDashboardStats s).shortlisted =
      (mapValues s.candidates).countP (fun c => c.status = "Shortlisted") ∧
    getDashboardStats statsExampleStore =
      { totalPositions := 2, totalCandidates := 4, inReview := 2, shortlisted := 1 } := by
  refine ⟨rfl, rfl, ?_, ?_, by decide⟩
  · rw [List.countP_eq_length_filter]
    rfl
  · rw [List.countP_eq_length_filter]
    rfl

/-- C10: a freshly constructed store is pre-seeded with one Position with
id 1, title "Senior Frontend Developer" and status "Active"; its position
counter stands at 2, `getPositions` returns the seeded record,
`getDashboardStats` reports one position, the first `createPosition`
returns id 2, the candidate collection starts empty, and the first
`createCandidate` returns id 1. -/
theorem initial_store_spec (t0 now now₂ : Nat) (f : InsertPosition) (g : InsertCandidate) :
    getPositions (initialStore t0) = [seedPosition t0] ∧
    (seedPosition t0).id = 1 ∧
    (seedPosition t0).title = "Senior Frontend Developer" ∧
    (seedPosition t0).status = "Active" ∧
    (initialStore t0).nextPositionId = 2 ∧
    (getDashboardStats (initialStore t0)).totalPositions = 1 ∧
    ((createPosition (initialStore t0) f now).1).id = 2 ∧
    (initialStore t0).candidates = [] ∧
    ((createCandidate (initialStore t0) g now₂).1).id = 1 :=
  ⟨rfl, rfl, rfl, rfl, rfl, rfl, rfl, rfl, rfl⟩

/-- C9: updating a present record with the all-omitted partial rewrites
only the updated timestamp, which becomes `now` (so it advances whenever
the clock did not go backwards); every other field is unchanged. -/
theorem update_with_empty_fields (s : StoreState) (id : Nat) (now : Nat) :
    (∀ r, mapGet s.positions id = some r →
      updatePosition s id emptyPartialPosition now =
        some ({ r with updatedAt := now },
              { s with positions := mapSet s.positions id { r with updatedAt := now } }) ∧
      (r.updatedAt ≤ now →
        r.updatedAt ≤ (({ r with updatedAt := now } : Position)).updatedAt)) ∧
    (∀ r, mapGet s.candidates id = some r →
      updateCandidate s id emptyPartialCandidate now =
        some ({ r with updatedAt := now },
              { s with candidates := mapSet s.candidates id { r with updatedAt := now } }) ∧
      (r.updatedAt ≤ now →
        r.updatedAt ≤ (({ r with updatedAt := now } : Candidate)).updatedAt)) := by
  constructor
  · intro r h
    exact ⟨by simp [updatePosition, h, mergePosition, emptyPartialPosition], fun hle => hle⟩
  · intro r h
    exact ⟨by simp [updateCandidate, h, mergeCandidate, emptyPartialCandidate], fun hle => hle⟩

/-- Witness for the empty-partial update theorem, at the seeded store. -/
theorem update_with_empty_fields_witness :
    updatePosition (initialStore 0) 1 emptyPartialPosition 5 =
      some ({ seedPosition 0 with updatedAt := 5 },
            { initialStore 0 with
              positions := mapSet (initialStore 0).positions 1
                { seedPosition 0 with updatedAt := 5 } }) :=
  (((update_with_empty_fields (initialStore 0) 1 5).1 (seedPosition 0) rfl).1)

/-- C4: partial update fails (with the thrown not-found error, modelled
as `none`) exactly when the id is absent; on a present id it returns and
stores the record obtained by overwriting the existing fields with the
supplied ones, leaving omitted fields and `createdAt` unchanged and
setting `updatedAt` to now, and it touches nothing else in the store. -/
theorem update_merges_or_not_found (s : StoreState) (id : Nat) (p : PartialPosition)
    (q : PartialCandidate) (now : Nat) :
    (updatePosition s id p now = none ↔ mapGet s.positions id = none) ∧
    (∀ r, mapGet s.positions id = some r → ∃ r₂ s₂,
      updatePosition s id p now = some (r₂, s₂) ∧
      r₂.id = r.id ∧
      r₂.title = p.title.getD r.title ∧
      r₂.department = p.department.getD r.department ∧
      r₂.location = p.location.getD r.location ∧
      r₂.description = p.description.getD r.description ∧
      r₂.status = p.status.getD r.status ∧
      r₂.createdAt = r.createdAt ∧
      r₂.updatedAt = now ∧
      mapGet s₂.positions id = some r₂ ∧
      s₂.users = s.users ∧ s₂.candidates = s.candidates ∧
      s₂.nextPositionId = s.nextPositionId ∧ s₂.nextCandidateId = s.nextCandidateId) ∧
    (updateCandidate s id q now = none ↔ mapGet s.candidates id = none) ∧
    (∀ r, mapGet s.candidates id = some r → ∃ r₂ s₂,
      updateCandidate s id q now = some (r₂, s₂) ∧
      r₂.id = r.id ∧
      r₂.name = q.name.getD r.name ∧
      r₂.email = q.email.getD r.email ∧
      r₂.phone = q.phone.getD r.phone ∧
      r₂.resume = q.resume.getD r.resume ∧
      r₂.positionId = q.positionId.getD r.positionId ∧
      r₂.positionApplied = q.positionApplied.getD r.positionApplied ∧
      r₂.status = q.status.getD r.status ∧
      r₂.createdAt = r.createdAt ∧
      r₂.updatedAt = now ∧
      mapGet s₂.candidates id = some r₂ ∧
      s₂.users = s.users ∧ s₂.positions = s.positions ∧
      s₂.nextPositionId = s.nextPositionId ∧ s₂.nextCandidateId = s.nextCandidateId) ∧
    (mapGet s.positions id = none → (putPositionRoute s id p now).2 = s) ∧
    (mapGet s.candidates id = none → (putCandidateRoute s id q now).2 = s) := by
  refine ⟨?_, ?_, ?_, ?_, ?_, ?_⟩
  · cases h : mapGet s.positions id <;> simp [updatePosition, h]
  · intro r h
    refine ⟨mergePosition r p now,
      { s with positions := mapSet s.positions id (mergePosition r p now) },
      by simp [updatePosition, h], rfl, rfl, rfl, rfl, rfl, rfl, rfl, rfl,
      mapGet_mapSet_self _ _ _, rfl, rfl, rfl, rfl⟩
  · cases h : mapGet s.candidates id <;> simp [updateCandidate, h]
  · intro r h
    refine ⟨mergeCandidate r q now,
      { s with candidates := mapSet s.candidates id (mergeCandidate r q now) },
      by simp [updateCandidate, h], rfl, rfl, rfl, rfl, rfl, rfl, rfl, rfl, rfl,
      rfl, mapGet_mapSet_self _ _ _, rfl, rfl, rfl, rfl⟩
  · intro h
    simp [putPositionRoute, updatePosition, h]
  · intro h
    simp [putCandidateRoute, updateCandidate, h]

/-- Witness for the update theorem: updating the seeded position. -/
theorem update_merges_or_not_found_witness :
    ∃ r₂ s₂,
      updatePosition (initialStore 0) 1 { title := some "Lead Developer" } 7 =
        some (r₂, s₂) ∧
      r₂.id = (seedPosition 0).id ∧
      r₂.title = (some "Lead Developer").getD (seedPosition 0).title ∧
      r₂.department = (none : Option String).getD (seedPosition 0).department ∧
      r₂.location = (none : Option String).getD (seedPosition 0).location ∧
      r₂.description = (none : Option (Option String)).getD (seedPosition 0).description ∧
      r₂.status = (none : Option String).getD (seedPosition 0).status ∧
      r₂.createdAt = (seedPosition 0).createdAt ∧
      r₂.updatedAt = 7 ∧
      mapGet s₂.positions 1 = some r₂ ∧
      s₂.users = (initialStore 0).users ∧ s₂.candidates = (initialStore 0).candidates ∧
      s₂.nextPositionId = (initialStore 0).nextPositionId ∧
      s₂.nextCandidateId = (initialStore 0).nextCandidateId :=
  (update_merges_or_not_found (initialStore 0) 1 { title := some "Lead Developer" }
    emptyPartialCandidate 7).2.1 (seedPosition 0) rfl

/-- C5: delete fails (thrown not-found, modelled as `none`) exactly when
the id is absent; a successful delete removes the record permanently, so
a subsequent lookup reports not-found and a subsequent update fails, and
deleting a Position leaves the Candidate (and User) collections
untouched. -/
theorem delete_removes_or_not_found (s : StoreState) (id : Nat) (p : PartialPosition)
    (q : PartialCandidate) (now : Nat) :
    (deletePosition s id = none ↔ mapGet s.positions id = none) ∧
    (∀ s₂, deletePosition s id = some s₂ →
      mapGet s₂.positions id = none ∧
      updatePosition s₂ id p now = none ∧
      s₂.candidates = s.candidates ∧ s₂.users = s.users) ∧
    (deleteCandidate s id = none ↔ mapGet s.candidates id = none) ∧
    (∀ s₂, deleteCandidate s id = some s₂ →
      mapGet s₂.candidates id = none ∧
      updateCandidate s₂ id q now = none ∧
      s₂.positions = s.positions ∧ s₂.users = s.users) := by
  refine ⟨?_, ?_, ?_, ?_⟩
  · cases h : mapGet s.positions id <;> simp [deletePosition, h]
  · intro s₂ h
    have hs : s₂ = { s with positions := mapDelete s.positions id } := by
      by_cases hg : (mapGet s.positions id).isSome
      · simpa [deletePosition, hg] using h.symm
      · simp [deletePosition, hg] at h
    subst hs
    exact ⟨mapGet_mapDelete_self _ _,
      by simp [updatePosition, mapGet_mapDelete_self], rfl, rfl⟩
  · cases h : mapGet s.candidates id <;> simp [deleteCandidate, h]
  · intro s₂ h
    have hs : s₂ = { s with candidates := mapDelete s.candidates id } := by
      by_cases hg : (mapGet s.candidates id).isSome
      · simpa [deleteCandidate, hg] using h.symm
      · simp [deleteCandidate, hg] at h
    subst hs
    exact ⟨mapGet_mapDelete_self _ _,
      by simp [updateCandidate, mapGet_mapDelete_self], rfl, rfl⟩

/-- Witness for the delete theorem: deleting the seeded position. -/
theorem delete_removes_or_not_found_witness :
    mapGet ({ initialStore 0 with
      positions := mapDelete (initialStore 0).positions 1 } : StoreState).positions 1 = none ∧
    updatePosition { initialStore 0 with
      positions := mapDelete (initialStore 0).positions 1 } 1 emptyPartialPosition 3 = none ∧
    ({ initialStore 0 with
      positions := mapDelete (initialStore 0).positions 1 } : StoreState).candidates =
      (initialStore 0).candidates ∧
    ({ initialStore 0 with
      positions := mapDelete (initialStore 0).positions 1 } : StoreState).users =
      (initialStore 0).users :=
  (delete_removes_or_not_found (initialStore 0) 1 emptyPartialPosition
    emptyPartialCandidate 3).2.1
    { initialStore 0 with positions := mapDelete (initialStore 0).positions 1 } rfl

/-- C3 (counterexample): on the freshly constructed store, id 999 is
absent from both collections, yet every one of the four endpoints
responds with status 500, not 404: the route handlers convert the thrown
not-found error into a generic 500 (only `ZodError` gets a distinct
status). -/
theorem routes_missing_id_counterexample :
    mapGet (initialStore 0).positions 999 = none ∧
    mapGet (initialStore 0).candidates 999 = none ∧
    (putPositionRoute (initialStore 0) 999 emptyPartialPosition 1).1 = 500 ∧
    (putPositionRoute (initialStore 0) 999 emptyPartialPosition 1).1 ≠ 404 ∧
    (deletePositionRoute (initialStore 0) 999).1 = 500 ∧
    (deletePositionRoute (initialStore 0) 999).1 ≠ 404 ∧
    (putCandidateRoute (initialStore 0) 999 emptyPartialCandidate 1).1 = 500 ∧
    (putCandidateRoute (initialStore 0) 999 emptyPartialCandidate 1).1 ≠ 404 ∧
    (deleteCandidateRoute (initialStore 0) 999).1 = 500 ∧
    (deleteCandidateRoute (initialStore 0) 999).1 ≠ 404 := by
  decide

/-- C3 (amended): an id absent from the Position collection makes PUT and
DELETE on /positions/:id respond with status 500 (not 404) and leave the
store unchanged, and an id absent from the Candidate collection does the
same for PUT and DELETE on /candidates/:id; each endpoint depends only on
its own collection. -/
theorem routes_missing_id_respond_500 (s : StoreState) (id : Nat) (body : PartialPosition)
    (bodyC : PartialCandidate) (now : Nat) :
    (mapGet s.positions id = none →
      putPositionRoute s id body now = (500, s) ∧
      deletePositionRoute s id = (500, s)) ∧
    (mapGet s.candidates id = none →
      putCandidateRoute s id bodyC now = (500, s) ∧
      deleteCandidateRoute s id = (500, s)) := by
  constructor
  · intro hp
    exact ⟨by simp [putPositionRoute, updatePosition, hp],
      by simp [deletePositionRoute, deletePosition, hp]⟩
  · intro hc
    exact ⟨by simp [putCandidateRoute, updateCandidate, hc],
      by simp [deleteCandidateRoute, deleteCandidate, hc]⟩

/-- Witness for the amended missing-id route theorem: position id 999 is
absent from the fresh store, and candidate id 1 is absent from the fresh
store even though position id 1 is present, so the candidate endpoints
respond 500 there independently of the Position collection. -/
theorem routes_missing_id_respond_500_witness :
    (putPositionRoute (initialStore 0) 999 emptyPartialPosition 1 = (500, initialStore 0) ∧
     deletePositionRoute (initialStore 0) 999 = (500, initialStore 0)) ∧
    (putCandidateRoute (initialStore 0) 1 emptyPartialCandidate 1 = (500, initialStore 0) ∧
     deleteCandidateRoute (initialStore 0) 1 = (500, initialStore 0)) :=
  ⟨(routes_missing_id_respond_500 (initialStore 0) 999 emptyPartialPosition
      emptyPartialCandidate 1).1 rfl,
   (routes_missing_id_respond_500 (initialStore 0) 1 emptyPartialPosition
      emptyPartialCandidate 1).2 rfl⟩

/-! Candidate filtering: the spec-side predicates and the comparison with
`getCandidates`. -/

/-- Spec-side reading of one optional filter, exactly as the claim words
it: a supplied filter value constrains via `b`, an absent filter imposes
no constraint. -/
def strictClause (v : Option String) (b : String → Bool) : Bool :=
  match v with
  | some p => b p
  | none => true

/-- Amended reading of one optional filter: a supplied empty string also
imposes no constraint (the code's truthiness guard skips it). -/
def specClause (v : Option String) (b : String → Bool) : Bool :=
  match v with
  | some p => p = "" || b p
  | none => true

/-- Code-side reading of one optional filter, via the truthiness
coercion `jsOrNull`. -/
def codeClause (v : Option String) (b : String → Bool) : Bool :=
  match jsOrNull v with
  | some p => b p
  | none => true

/-- The candidate-filter conjunction exactly as the claim states it:
supplied `position` and `status` compare by string equality, supplied
`search` matches when the lower-cased search string occurs in the
lower-cased name or email, absent filters impose no constraint. -/
def specCandMatchesStrict (f : Filters) (c : Candidate) : Bool :=
  strictClause f.position (fun p => c.positionApplied = p) &&
  strictClause f.status (fun st => c.status = st) &&
  strictClause f.search (fun q =>
    strIncludes c.name.toLower q.toLower || strIncludes c.email.toLower q.toLower)

/-- The candidate-filter conjunction amended minimally: an empty-string
filter value is treated like an absent filter; otherwise as in
`specCandMatchesStrict`. -/
def specCandMatches (f : Filters) (c : Candidate) : Bool :=
  specClause f.position (fun p => c.positionApplied = p) &&
  specClause f.status (fun st => c.status = st) &&
  specClause f.search (fun q =>
    strIncludes c.name.toLower q.toLower || strIncludes c.email.toLower q.toLower)

theorem specClause_eq_codeClause (v : Option String) (b : String → Bool) :
    specClause v b = codeClause v b := by
  cases v with
  | none => rfl
  | some p =>
      by_cases hpe : p = ""
      · subst hpe
        simp [specClause, codeClause, jsOrNull]
      · simp [specClause, codeClause, jsOrNull, hpe]

/-- The filter chain of `getCandidates` computes a single filter over the
amended conjunction, followed by the descending sort. -/
theorem getCandidates_some_eq (s : StoreState) (f : Filters) :
    getCandidates s (some f) =
      sortDescBy (fun c => c.createdAt)
        ((mapValues s.candidates).filter (fun c => specCandMatches f c)) := by
  unfold getCandidates specCandMatches
  simp only [specClause_eq_codeClause]
  cases hp : jsOrNull f.position <;> cases hs : jsOrNull f.status <;>
    cases hq : jsOrNull f.search <;>
    simp [codeClause, hp, hs, hq, List.filter_filter, Bool.and_assoc, Bool.and_comm,
      Bool.and_left_comm]

/-- C1 (counterexample): a filter set whose `position` entry is the empty
string.  The sole stored candidate has `positionApplied`
"Backend Developer", which is not equal to the supplied string, so the
claim as stated predicts an empty listing; the code ignores the falsy
filter and returns the candidate. -/
theorem getCandidates_strict_filter_counterexample :
    getCandidates
        { users := [], positions := [], candidates := [(1, exCandidate 1 "New")],
          nextPositionId := 1, nextCandidateId := 2 }
        (some { position := some "", status := none, search := none }) =
      [exCandidate 1 "New"] ∧
    specCandMatchesStrict { position := some "", status := none, search := none }
      (exCandidate 1 "New") = false ∧
    (mapValues
        ({ users := [], positions := [], candidates := [(1, exCandidate 1 "New")],
           nextPositionId := 1, nextCandidateId := 2 } : StoreState).candidates).filter
      (fun c => specCandMatchesStrict
        { position := some "", status := none, search := none } c) = [] := by
  decide

/-- C1 (amended): the candidate listing returns exactly the candidates
satisfying the conjunction of the supplied filters, where a supplied
empty-string filter (like an absent one) imposes no constraint:
the result is a permutation of the filtered collection (ordering is the
subject of the sortedness theorem), and an absent or empty filter set
returns every candidate. -/
theorem getCandidates_filter_spec (s : StoreState) (f : Filters) :
    (getCandidates s (some f)).Perm
      ((mapValues s.candidates).filter (fun c => specCandMatches f c)) ∧
    (getCandidates s none).Perm (mapValues s.candidates) ∧
    (getCandidates s (some { position := none, status := none, search := none })).Perm
      (mapValues s.candidates) := by
  refine ⟨?_, ?_, ?_⟩
  · rw [getCandidates_some_eq]
    exact sortDescBy_perm _ _
  · unfold getCandidates
    exact sortDescBy_perm _ _
  · unfold getCandidates
    simp only [jsOrNull]
    exact sortDescBy_perm _ _

/-! Operation traces, for the identifier-monotonicity invariant. -/

/-- One mutating store operation. -/
inductive StoreOp where
  | createPos (fields : InsertPosition) (now : Nat)
  | updatePos (id : Nat) (fields : PartialPosition) (now : Nat)
  | deletePos (id : Nat)
  | createCand (fields : InsertCandidate) (now : Nat)
  | updateCand (id : Nat) (fields : PartialCandidate) (now : Nat)
  | deleteCand (id : Nat)
  | upsertU (u : UpsertUser) (now : Nat)
deriving DecidableEq, Repr

/-- Apply one operation to the store; a failing update or delete leaves
the state unchanged (the thrown error propagates to the route layer). -/
def applyOp (s : StoreState) : StoreOp → StoreState
  | .createPos f now => (createPosition s f now).2
  | .updatePos id f now =>
      match updatePosition s id f now with
      | some (_, s₂) => s₂
      | none => s
  | .deletePos id => (deletePosition s id).getD s
  | .createCand f now => (createCandidate s f now).2
  | .updateCand id f now =>
      match updateCandidate s id f now with
      | some (_, s₂) => s₂
      | none => s
  | .deleteCand id => (deleteCandidate s id).getD s
  | .upsertU u now => (upsertUser s u now).2

/-- Run a trace of operations from a starting state. -/
def runOps (s : StoreState) (ops : List StoreOp) : StoreState :=
  ops.foldl applyOp s

/-- Recognizer for position-create operations. -/
def StoreOp.isCreatePos : StoreOp → Bool
  | .createPos _ _ => true
  | _ => false

/-- Recognizer for candidate-create operations. -/
def StoreOp.isCreateCand : StoreOp → Bool
  | .createCand _ _ => true
  | _ => false

/-- The identifier that the k-th operation of a trace run from the
freshly constructed store assigns when it is a position create: the
value of the position counter after processing the first k operations
(`createPosition` returns the counter and post-increments it). -/
def posIdAssigned (t0 : Nat) (ops : List StoreOp) (k : Nat) : Nat :=
  (runOps (initialStore t0) (ops.take k)).nextPositionId

/-- Candidate analog of `posIdAssigned`. -/
def candIdAssigned (t0 : Nat) (ops : List StoreOp) (k : Nat) : Nat :=
  (runOps (initialStore t0) (ops.take k)).nextCandidateId

theorem applyOp_nextPositionId_le (s : StoreState) (op : StoreOp) :
    s.nextPositionId ≤ (applyOp s op).nextPositionId := by
  cases op with
  | createPos f now => exact Nat.le_succ _
  | updatePos id f now =>
      cases hg : mapGet s.positions id <;> simp [applyOp, updatePosition, hg]
  | deletePos id =>
      cases hg : mapGet s.positions id <;> simp [applyOp, deletePosition, hg]
  | createCand f now => exact Nat.le_refl _
  | updateCand id f now =>
      cases hg : mapGet s.candidates id <;> simp [applyOp, updateCandidate, hg]
  | deleteCand id =>
      cases hg : mapGet s.candidates id <;> simp [applyOp, deleteCandidate, hg]
  | upsertU u now => exact Nat.le_refl _

theorem applyOp_nextCandidateId_le (s : StoreState) (op : StoreOp) :
    s.nextCandidateId ≤ (applyOp s op).nextCandidateId := by
  cases op with
  | createPos f now => exact Nat.le_refl _
  | updatePos id f now =>
      cases hg : mapGet s.positions id <;> simp [applyOp, updatePosition, hg]
  | deletePos id =>
      cases hg : mapGet s.positions id <;> simp [applyOp, deletePosition, hg]
  | createCand f now => exact Nat.le_succ _
  | updateCand id f now =>
      cases hg : mapGet s.candidates id <;> simp [applyOp, updateCandidate, hg]
  | deleteCand id =>
      cases hg : mapGet s.candidates id <;> simp [applyOp, deleteCandidate, hg]
  | upsertU u now => exact Nat.le_refl _

theorem runOps_nextPositionId_le (s : StoreState) (ops : List StoreOp) :
    s.nextPositionId ≤ (runOps s ops).nextPositionId := by
  induction ops generalizing s with
  | nil => exact Nat.le_refl _
  | cons op rest ih =>
      exact le_trans (applyOp_nextPositionId_le s op) (ih (applyOp s op))

theorem runOps_nextCandidateId_le (s : StoreState) (ops : List StoreOp) :
    s.nextCandidateId ≤ (runOps s ops).nextCandidateId := by
  induction ops generalizing s with
  | nil => exact Nat.le_refl _
  | cons op rest ih =>
      exact le_trans (applyOp_nextCandidateId_le s op) (ih (applyOp s op))

theorem runOps_append (s : StoreState) (l₁ l₂ : List StoreOp) :
    runOps s (l₁ ++ l₂) = runOps (runOps s l₁) l₂ := by
  simp [runOps]

theorem posIdAssigned_lt (t0 : Nat) (ops : List StoreOp) (i j : Nat)
    (hij : i < j) (f : InsertPosition) (now : Nat)
    (hi : ops[i]? = some (StoreOp.createPos f now)) :
    posIdAssigned t0 ops i < posIdAssigned t0 ops j := by
  have htake : ops.take (i + 1) = ops.take i ++ [StoreOp.createPos f now] := by
    rw [List.take_succ, hi]
    rfl
  have hstep :
      runOps (initialStore t0) (ops.take (i + 1)) =
        applyOp (runOps (initialStore t0) (ops.take i)) (StoreOp.createPos f now) := by
    rw [htake, runOps_append]
    rfl
  have hsucc :
      (runOps (initialStore t0) (ops.take (i + 1))).nextPositionId =
        posIdAssigned t0 ops i + 1 := by
    rw [hstep]
    rfl
  have hdecomp : ops.take j = ops.take (i + 1) ++ (ops.drop (i + 1)).take (j - (i + 1)) := by
    have hj₂ : (i + 1) + (j - (i + 1)) = j := by omega
    rw [← hj₂, List.take_add, hj₂]
  have hmono :
      (runOps (initialStore t0) (ops.take (i + 1))).nextPositionId ≤
        posIdAssigned t0 ops j := by
    unfold posIdAssigned
    rw [hdecomp, runOps_append]
    exact runOps_nextPositionId_le _ _
  rw [hsucc] at hmono
  omega

theorem candIdAssigned_lt (t0 : Nat) (ops : List StoreOp) (i j : Nat)
    (hij : i < j) (f : InsertCandidate) (now : Nat)
    (hi : ops[i]? = some (StoreOp.createCand f now)) :
    candIdAssigned t0 ops i < candIdAssigned t0 ops j := by
  have htake : ops.take (i + 1) = ops.take i ++ [StoreOp.createCand f now] := by
    rw [List.take_succ, hi]
    rfl
  have hstep :
      runOps (initialStore t0) (ops.take (i + 1)) =
        applyOp (runOps (initialStore t0) (ops.take i)) (StoreOp.createCand f now) := by
    rw [htake, runOps_append]
    rfl
  have hsucc :
      (runOps (initialStore t0) (ops.take (i + 1))).nextCandidateId =
        candIdAssigned t0 ops i + 1 := by
    rw [hstep]
    rfl
  have hdecomp : ops.take j = ops.take (i + 1) ++ (ops.drop (i + 1)).take (j - (i + 1)) := by
    have hj₂ : (i + 1) + (j - (i + 1)) = j := by omega
    rw [← hj₂, List.take_add, hj₂]
  have hmono :
      (runOps (initialStore t0) (ops.take (i + 1))).nextCandidateId ≤
        candIdAssigned t0 ops j := by
    unfold candIdAssigned
    rw [hdecomp, runOps_append]
    exact runOps_nextCandidateId_le _ _
  rw [hsucc] at hmono
  omega

/-- C6: along any trace of operations from the freshly constructed
store, a position create at step i assigns a strictly smaller identifier
than any later create in the same collection (so identifiers are
monotonic and never reused, deletions included, since the counters never
decrease); the candidate collection satisfies the same property; both
counters are initialized at 1 (`MemStorage`'s field initializers); the
candidate counter still stands at 1 after construction, while the
constructor's seeding consumes position id 1, so every position created
later gets an id of at least 2 and the seed's id is never reassigned. -/
theorem create_identifier_monotonic (t0 : Nat) (ops : List StoreOp) (i j : Nat)
    (hij : i < j)
    (hci : ops[i]?.map StoreOp.isCreatePos = some true)
    (_hcj : ops[j]?.map StoreOp.isCreatePos = some true) :
    posIdAssigned t0 ops i < posIdAssigned t0 ops j ∧
    (∀ (l : List StoreOp) (i₂ j₂ : Nat), i₂ < j₂ →
      l[i₂]?.map StoreOp.isCreateCand = some true →
      candIdAssigned t0 l i₂ < candIdAssigned t0 l j₂) ∧
    emptyStore.nextPositionId = 1 ∧
    emptyStore.nextCandidateId = 1 ∧
    (initialStore t0).nextCandidateId = 1 ∧
    (∀ l : List StoreOp, 2 ≤ (runOps (initialStore t0) l).nextPositionId) ∧
    (∀ l : List StoreOp, 1 ≤ (runOps (initialStore t0) l).nextCandidateId) := by
  refine ⟨?_, ?_, rfl, rfl, rfl, ?_, ?_⟩
  · cases hop : ops[i]? with
    | none => rw [hop] at hci; cases hci
    | some op =>
        rw [hop] at hci
        cases op with
        | createPos f now => exact posIdAssigned_lt t0 ops i j hij f now hop
        | updatePos id f now => simp [StoreOp.isCreatePos] at hci
        | deletePos id => simp [StoreOp.isCreatePos] at hci
        | createCand f now => simp [StoreOp.isCreatePos] at hci
        | updateCand id f now => simp [StoreOp.isCreatePos] at hci
        | deleteCand id => simp [StoreOp.isCreatePos] at hci
        | upsertU u now => simp [StoreOp.isCreatePos] at hci
  · intro l i₂ j₂ hij₂ hcand
    cases hop : l[i₂]? with
    | none => rw [hop] at hcand; cases hcand
    | some op =>
        rw [hop] at hcand
        cases op with
        | createCand f now => exact candIdAssigned_lt t0 l i₂ j₂ hij₂ f now hop
        | createPos f now => simp [StoreOp.isCreateCand] at hcand
        | updatePos id f now => simp [StoreOp.isCreateCand] at hcand
        | deletePos id => simp [StoreOp.isCreateCand] at hcand
        | updateCand id f now => simp [StoreOp.isCreateCand] at hcand
        | deleteCand id => simp [StoreOp.isCreateCand] at hcand
        | upsertU u now => simp [StoreOp.isCreateCand] at hcand
  · intro l
    exact runOps_nextPositionId_le (initialStore t0) l
  · intro l
    exact runOps_nextCandidateId_le (initialStore t0) l

/-- Sample input fields for a position create, used by the trace
witness. -/
def sampleInsertPosition : InsertPosition :=
  { title := "Backend Developer", department := "Engineering", location := "NY" }

/-- Two consecutive position creates, the concrete trace of the
monotonicity witness. -/
def witnessOps : List StoreOp :=
  [StoreOp.createPos sampleInsertPosition 0, StoreOp.createPos sampleInsertPosition 1]

/-- Witness for the identifier-monotonicity theorem, on a trace of two
consecutive position creates from the fresh store: the first create
assigns id 2, the second id 3. -/
theorem create_identifier_monotonic_witness :
    posIdAssigned 0 witnessOps 0 < posIdAssigned 0 witnessOps 1 ∧
    (∀ (l : List StoreOp) (i₂ j₂ : Nat), i₂ < j₂ →
      l[i₂]?.map StoreOp.isCreateCand = some true →
      candIdAssigned 0 l i₂ < candIdAssigned 0 l j₂) ∧
    emptyStore.nextPositionId = 1 ∧
    emptyStore.nextCandidateId = 1 ∧
    (initialStore 0).nextCandidateId = 1 ∧
    (∀ l : List StoreOp, 2 ≤ (runOps (initialStore 0) l).nextPositionId) ∧
    (∀ l : List StoreOp, 1 ≤ (runOps (initialStore 0) l).nextCandidateId) :=
  create_identifier_monotonic 0 witnessOps 0 1 (by decide) (by decide) (by decide)

/-! User upsert. -/

/-- C7 (amended): `upsertUser` keeps the existing record's `createdAt`
for a present identity and uses the current time for an absent one, sets
`updatedAt` to the current time, stores the record under the identity,
and sets every supplied non-empty field to its supplied value; a field
supplied as the empty string (or absent, or null) is stored as null, the
minimal amendment forced by the code's `|| null` coercions. -/
theorem upsertUser_spec (s : StoreState) (u : UpsertUser) (now : Nat) :
    ((upsertUser s u now).1).id = u.id ∧
    ((upsertUser s u now).1).updatedAt = now ∧
    (∀ e, mapGet s.users u.id = some e → ((upsertUser s u now).1).createdAt = e.createdAt) ∧
    (mapGet s.users u.id = none → ((upsertUser s u now).1).createdAt = now) ∧
    (∀ v, u.email = some v → v ≠ "" → ((upsertUser s u now).1).email = some v) ∧
    ((u.email = none ∨ u.email = some "") → ((upsertUser s u now).1).email = none) ∧
    (∀ v, u.firstName = some v → v ≠ "" → ((upsertUser s u now).1).firstName = some v) ∧
    ((u.firstName = none ∨ u.firstName = some "") →
      ((upsertUser s u now).1).firstName = none) ∧
    (∀ v, u.lastName = some v → v ≠ "" → ((upsertUser s u now).1).lastName = some v) ∧
    ((u.lastName = none ∨ u.lastName = some "") → ((upsertUser s u now).1).lastName = none) ∧
    (∀ v, u.profileImageUrl = some v → v ≠ "" →
      ((upsertUser s u now).1).profileImageUrl = some v) ∧
    ((u.profileImageUrl = none ∨ u.profileImageUrl = some "") →
      ((upsertUser s u now).1).profileImageUrl = none) ∧
    mapGet ((upsertUser s u now).2).users u.id = some ((upsertUser s u now).1) := by
  refine ⟨rfl, rfl, ?_, ?_, ?_, ?_, ?_, ?_, ?_, ?_, ?_, ?_, ?_⟩
  · intro e h
    simp [upsertUser, h]
  · intro h
    simp [upsertUser, h]
  · intro v hv hne
    simp [upsertUser, jsOrNull, hv, hne]
  · rintro (h | h) <;> simp [upsertUser, jsOrNull, h]
  · intro v hv hne
    simp [upsertUser, jsOrNull, hv, hne]
  · rintro (h | h) <;> simp [upsertUser, jsOrNull, h]
  · intro v hv hne
    simp [upsertUser, jsOrNull, hv, hne]
  · rintro (h | h) <;> simp [upsertUser, jsOrNull, h]
  · intro v hv hne
    simp [upsertUser, jsOrNull, hv, hne]
  · rintro (h | h) <;> simp [upsertUser, jsOrNull, h]
  · exact mapGet_mapSet_self _ _ _

/-- A user as stored after a first login, for the upsert witness and
counterexample. -/
def witnessUser : User :=
  { id := "w"
    email := some "old@x.com"
    firstName := some "Old"
    lastName := none
    profileImageUrl := none
    createdAt := 4
    updatedAt := 4 }

/-- Store holding `witnessUser`. -/
def witnessUserStore : StoreState :=
  { emptyStore with users := [("w", witnessUser)] }

/-- Witness for the upsert theorem: a second upsert of the same identity
with a fresh non-empty email keeps `createdAt`, refreshes `updatedAt`,
overwrites the email, and stores the result. -/
theorem upsertUser_spec_witness :
    ((upsertUser witnessUserStore
        { id := "w", email := some "new@x.com", firstName := none, lastName := none,
          profileImageUrl := none } 9).1).createdAt = witnessUser.createdAt ∧
    ((upsertUser witnessUserStore
        { id := "w", email := some "new@x.com", firstName := none, lastName := none,
          profileImageUrl := none } 9).1).email = some "new@x.com" ∧
    ((upsertUser witnessUserStore
        { id := "w", email := some "new@x.com", firstName := none, lastName := none,
          profileImageUrl := none } 9).1).updatedAt = 9 ∧
    ((upsertUser witnessUserStore
        { id := "w", email := some "new@x.com", firstName := none, lastName := none,
          profileImageUrl := none } 9).1).firstName = none :=
  ⟨(upsertUser_spec witnessUserStore
      { id := "w", email := some "new@x.com", firstName := none, lastName := none,
        profileImageUrl := none } 9).2.2.1 witnessUser rfl,
   (upsertUser_spec witnessUserStore
      { id := "w", email := some "new@x.com", firstName := none, lastName := none,
        profileImageUrl := none } 9).2.2.2.2.1 "new@x.com" rfl (by decide),
   (upsertUser_spec witnessUserStore
      { id := "w", email := some "new@x.com", firstName := none, lastName := none,
        profileImageUrl := none } 9).2.1,
   (upsertUser_spec witnessUserStore
      { id := "w", email := some "new@x.com", firstName := none, lastName := none,
        profileImageUrl := none } 9).2.2.2.2.2.2.2.1 (Or.inl rfl)⟩

/-- C7 (counterexample): upserting a present identity with the email
field supplied as the empty string does not store that supplied value:
the `|| null` coercion stores null instead, so not every supplied field
is updated to its new value. -/
theorem upsertUser_empty_field_counterexample :
    ((upsertUser witnessUserStore
        { id := "w", email := some "", firstName := some "Jane", lastName := none,
          profileImageUrl := none } 5).1).email = none ∧
    ¬ ((upsertUser witnessUserStore
        { id := "w", email := some "", firstName := some "Jane", lastName := none,
          profileImageUrl := none } 5).1).email = some "" := by
  decide

end RecruitMaster
